import Mathlib

/-!
# Verification of the godis core: RESP parser and keyspace commands

Shallow embedding of the repository's RESP streaming parser
(`redis/parser/parser.go`) and of the keyspace command executors
(`database` package, file with `execDel` … `execKeys`), together with
spec-modelled definitions for the parts of the repository that are not in
scope (the `protocol` writer, the `DB` engine, the `aof` and `wildcard`
helpers), and proofs about the claims of the specification.

Bytes are modelled as `Nat` (values < 256 on real inputs; no arithmetic
ever overflows a byte), byte strings as `List Nat`, Go `int64` as `Int`
with explicit range checks where `strconv` performs them.
-/

namespace Godis

/-! ## Decimal parsing (strconv.ParseInt / ParseUint) -/

/-- A byte is an ASCII decimal digit (48 = '0' … 57 = '9'). -/
def isDigitByte (b : Nat) : Bool := 48 ≤ b && b ≤ 57

/-- Value of a big-endian digit-byte string; `none` unless the string is
nonempty and all digits. Core of `strconv.ParseUint(s, 10, _)`. -/
def digitsVal? (s : List Nat) : Option Nat :=
  if s ≠ [] ∧ s.all isDigitByte then
    some (s.foldl (fun a d => a * 10 + (d - 48)) 0)
  else none

/-- `strconv.ParseUint(string(s), 10, 32)`: decimal digits, no sign
permitted, value must fit in 32 bits. -/
def parseUint32 (s : List Nat) : Option Nat :=
  (digitsVal? s).bind (fun v => if v < 2 ^ 32 then some v else none)

/-- `strconv.ParseInt(string(s), 10, 64)`: optional `+`/`-` sign, decimal
digits, value must fit in a signed 64-bit integer. -/
def parseInt64 (s : List Nat) : Option Int :=
  match s with
  | [] => none
  | b :: rest =>
    if b = 43 then
      (digitsVal? rest).bind (fun v => if v < 2 ^ 63 then some (v : Int) else none)
    else if b = 45 then
      (digitsVal? rest).bind (fun v => if v ≤ 2 ^ 63 then some (-(v : Int)) else none)
    else
      (digitsVal? s).bind (fun v => if v < 2 ^ 63 then some (v : Int) else none)

/-- Big-endian decimal digit bytes of a natural number ("%d" formatting,
as produced by `strconv.FormatInt` / the protocol writer). -/
def natToBytes (n : Nat) : List Nat :=
  if n = 0 then [48] else (Nat.digits 10 n).reverse.map (· + 48)

/-- Decimal byte rendering of an integer (possible leading `-`). -/
def intToBytes (n : Int) : List Nat :=
  if n < 0 then 45 :: natToBytes n.natAbs else natToBytes n.toNat

theorem natToBytes_all_digits (n : Nat) : (natToBytes n).all isDigitByte := by
  unfold natToBytes
  split
  · decide
  · simp only [List.all_eq_true, List.mem_map, List.mem_reverse]
    rintro b ⟨d, hd, rfl⟩
    have : d < 10 := Nat.digits_lt_base (by norm_num) hd
    simp [isDigitByte]
    omega

theorem natToBytes_ne_nil (n : Nat) : natToBytes n ≠ [] := by
  unfold natToBytes
  split
  · simp
  · simp [Nat.digits_ne_nil_iff_ne_zero, *]

theorem foldl_digits_rev (L : List Nat) (h : ∀ d ∈ L, d < 10) (acc : Nat) :
    (L.reverse.map (· + 48)).foldl (fun a d => a * 10 + (d - 48)) acc
      = acc * 10 ^ L.length + Nat.ofDigits 10 L := by
  induction L generalizing acc with
  | nil => simp
  | cons d t ih =>
    have hd : d < 10 := h d (List.mem_cons_self _ _)
    have ht : ∀ x ∈ t, x < 10 := fun x hx => h x (List.mem_cons_of_mem _ hx)
    simp only [List.reverse_cons, List.map_append, List.foldl_append, ih ht acc,
      List.map_cons, List.map_nil, List.foldl_cons, List.foldl_nil,
      Nat.ofDigits_cons, List.length_cons]
    have : d + 48 - 48 = d := by omega
    rw [this]
    ring

theorem digitsVal?_natToBytes (n : Nat) : digitsVal? (natToBytes n) = some n := by
  unfold digitsVal?
  rw [if_pos ⟨natToBytes_ne_nil n, natToBytes_all_digits n⟩]
  unfold natToBytes
  split
  · simp [*]
  · rw [foldl_digits_rev _ (fun d hd => Nat.digits_lt_base (by norm_num) hd) 0]
    simp [Nat.ofDigits_digits]

theorem parseUint32_natToBytes (n : Nat) (h : n < 2 ^ 32) :
    parseUint32 (natToBytes n) = some n := by
  have h' : n < 4294967296 := by omega
  simp [parseUint32, digitsVal?_natToBytes, h']

theorem natToBytes_head_digit (n : Nat) :
    ∀ b ∈ (natToBytes n).head? , isDigitByte b = true := by
  intro b hb
  have hall := natToBytes_all_digits n
  cases hcons : natToBytes n with
  | nil => simp [hcons] at hb
  | cons x t =>
    simp [hcons] at hb
    rw [hcons] at hall
    simp only [List.all_cons, Bool.and_eq_true] at hall
    exact hb ▸ hall.1

theorem parseInt64_digits (s : List Nat) (hne : s ≠ []) (hd : s.all isDigitByte) :
    parseInt64 s = (digitsVal? s).bind (fun v => if v < 2 ^ 63 then some (v : Int) else none) := by
  cases s with
  | nil => exact absurd rfl hne
  | cons b rest =>
    have hb : isDigitByte b := by
      simp only [List.all_cons, Bool.and_eq_true] at hd; exact hd.1
    simp only [isDigitByte, Bool.and_eq_true, decide_eq_true_eq] at hb
    have h43 : b ≠ 43 := by omega
    have h45 : b ≠ 45 := by omega
    simp [parseInt64, h43, h45]

theorem parseInt64_intToBytes (n : Int) (hlo : -(2 ^ 63) ≤ n) (hhi : n < 2 ^ 63) :
    parseInt64 (intToBytes n) = some n := by
  unfold intToBytes
  split
  · -- negative: leading '-'
    rename_i hneg
    have hstep : parseInt64 (45 :: natToBytes n.natAbs)
        = (digitsVal? (natToBytes n.natAbs)).bind
            (fun v => if v ≤ 2 ^ 63 then some (-(v : Int)) else none) := by
      simp [parseInt64]
    rw [hstep, digitsVal?_natToBytes]
    have habs : (n.natAbs : Int) ≤ 2 ^ 63 := by omega
    have h1 : n.natAbs ≤ 2 ^ 63 := by exact_mod_cast habs
    simp only [Option.some_bind, if_pos h1]
    congr 1
    omega
  · rename_i hpos
    rw [parseInt64_digits _ (natToBytes_ne_nil _) (natToBytes_all_digits _),
      digitsVal?_natToBytes]
    have h1 : n.toNat < 2 ^ 63 := by omega
    simp only [Option.some_bind, if_pos h1]
    congr 1
    omega

/-! ## Reply values (redis.Reply / the protocol package)

The parser (`parser.go`) produces `protocol.*Reply` values.  The
`protocol` package is outside the given sources; the reply taxonomy and
its serialization are modelled from the spec's Writer description. -/

/-- Bytes of a Lean string literal (Go string constants in the source). -/
def strBytes (s : String) : List Nat := s.data.map Char.toNat

/-- Reply values.  `EmptyMultiBulkReply` is `multiBulk []`, the null bulk
(`$-1`) is `nullBulk`; `OkReply` is `status "OK"`. -/
inductive Reply where
  | status (s : List Nat)
  | error (s : List Nat)
  | int (n : Int)
  | bulk (b : List Nat)
  | nullBulk
  | multiBulk (args : List (List Nat))
deriving DecidableEq

/-- Modelled from the spec: the Writer serialization of one bulk string,
`$len(b)\r\n b \r\n`. -/
def bulkSer (b : List Nat) : List Nat :=
  36 :: natToBytes b.length ++ [13, 10] ++ b ++ [13, 10]

/-- Modelled from the spec: the Writer (`protocol` package `ToBytes`),
per the reply taxonomy of §4.1: `+s\r\n`, `-s\r\n`, `:n\r\n`,
`$len\r\n b\r\n` (with `$-1\r\n` for the null bulk), `*N\r\n` followed by
each item's bulk serialization. -/
def serializeReply : Reply → List Nat
  | .status s => 43 :: (s ++ [13, 10])
  | .error s => 45 :: (s ++ [13, 10])
  | .int n => 58 :: (intToBytes n ++ [13, 10])
  | .bulk b => bulkSer b
  | .nullBulk => [36, 45, 49, 13, 10]
  | .multiBulk items =>
      42 :: natToBytes items.length ++ [13, 10] ++ (items.map bulkSer).flatten

/-! ## The streaming parser (`redis/parser/parser.go`) -/

/-- `readState` (parser.go lines 63-73). -/
structure RState where
  readingMultiLine : Bool
  expectedArgsCount : Nat
  msgType : Nat
  args : List (List Nat)
  bulkLen : Int
deriving DecidableEq

/-- The Go zero value `readState{}` used to (re)initialize parser state. -/
def RState.init : RState := ⟨false, 0, 0, [], 0⟩

/-- `(*readState).finished` (parser.go line 75). -/
def RState.finished (s : RState) : Bool :=
  s.expectedArgsCount > 0 && s.args.length = s.expectedArgsCount

/-- `bufio.Reader.ReadBytes('\n')`: the shortest prefix up to and
including the first `\n`, or `none` (read error / EOF) if none exists. -/
def splitLine : List Nat → Option (List Nat × List Nat)
  | [] => none
  | b :: r =>
    if b = 10 then some ([10], r)
    else
      match splitLine r with
      | some (m, r') => some (b :: m, r')
      | none => none

/-- Outcome of one `readLine` call (parser.go lines 205-236).
`protoErr` carries the unread remainder of the stream (the bad line has
been consumed from the buffered reader); `panicked` marks an
out-of-range index (negative slice index / negative `make` length),
which parser.go's deferred `recover` turns into silent goroutine death. -/
inductive ReadLineRes where
  | ok (msg rest : List Nat) (bulkLen : Int)
  | ioErr
  | protoErr (rest : List Nat)
  | panicked
deriving DecidableEq

/-- The header-line validation of `readLine` (parser.go line 216):
`len(msg) == 0 || msg[len(msg)-2] != '\r'`.  A one-byte line makes
`msg[len(msg)-2]` a negative index — a runtime panic in Go. -/
def lineCheck (msg rest : List Nat) (bl : Int) : ReadLineRes :=
  if msg.length = 0 then .protoErr rest
  else if msg.length = 1 then .panicked
  else if msg[msg.length - 2]? ≠ some 13 then .protoErr rest
  else .ok msg rest bl

/-- The bulk-line validation of `readLine` (parser.go lines 227-229):
`len(msg) == 0 || msg[len(msg)-2] != '\r' || msg[len(msg)-1] != '\n'`,
with `bulkLen` reset to 0 on success. -/
def bodyCheck (msg rest : List Nat) : ReadLineRes :=
  if msg.length = 0 then .protoErr rest
  else if msg.length = 1 then .panicked
  else if msg[msg.length - 2]? ≠ some 13 ∨ msg[msg.length - 1]? ≠ some 10 then
    .protoErr rest
  else .ok msg rest 0

/-- `readLine` (parser.go lines 205-236).  With `bulkLen = 0` it reads a
header line through `ReadBytes('\n')`; otherwise it reads `bulkLen + 2`
bytes with `io.ReadFull` (a negative `make` length would panic; fewer
bytes than requested is an io error). -/
def readLine (input : List Nat) (bulkLen : Int) : ReadLineRes :=
  if bulkLen = 0 then
    match splitLine input with
    | none => .ioErr
    | some (msg, rest) => lineCheck msg rest bulkLen
  else if bulkLen + 2 < 0 then .panicked
  else if input.length < (bulkLen + 2).toNat then .ioErr
  else bodyCheck (input.take (bulkLen + 2).toNat) (input.drop (bulkLen + 2).toNat)

/-- `parseMultiBulkHeader` (parser.go lines 240-264): `msg[1:len(msg)-2]`
through `strconv.ParseUint(_, 10, 32)`; 0 leaves only the count set
(the caller emits the empty multi bulk), a positive count switches to
multi-line accumulation. -/
def parseMultiBulkHeader (msg : List Nat) (s : RState) : Option RState :=
  match parseUint32 ((msg.drop 1).take (msg.length - 3)) with
  | none => none
  | some n =>
    if n = 0 then some { s with expectedArgsCount := 0 }
    else some { readingMultiLine := true, expectedArgsCount := n,
                msgType := msg.headD 0, args := [], bulkLen := s.bulkLen }

/-- `parseBulkHeader` (parser.go lines 266-284): `-1` records the null
bulk in `bulkLen`; a positive length starts a one-argument multi-line
read; anything else (including `0`) is a protocol error. -/
def parseBulkHeader (msg : List Nat) (s : RState) : Option RState :=
  match parseInt64 ((msg.drop 1).take (msg.length - 3)) with
  | none => none
  | some L =>
    if L = -1 then some { s with bulkLen := -1 }
    else if L > 0 then
      some { readingMultiLine := true, expectedArgsCount := 1,
             msgType := msg.headD 0, args := [], bulkLen := L }
    else none

/-- `strings.Split(s, " ")`. -/
def splitOnSpace : List Nat → List (List Nat)
  | [] => [[]]
  | b :: rest =>
    match splitOnSpace rest with
    | [] => [[]]
    | h :: t => if b = 32 then [] :: h :: t else (b :: h) :: t

/-- `strings.TrimSuffix(string(msg), "\r\n")`. -/
def trimCRLF (msg : List Nat) : List Nat :=
  if msg.reverse.take 2 = [10, 13] then msg.take (msg.length - 2) else msg

/-- `parseSingleLineReply` (parser.go lines 286-310).  `none` is the
protocol-error return (non-numeric `:` payload).  The `[]` case cannot
be reached from `parse0` (lines from `readLine` have length ≥ 2); Go
would panic at `msg[0]` there. -/
def parseSingleLineReply (msg : List Nat) : Option Reply :=
  let str := trimCRLF msg
  match msg with
  | [] => none
  | b :: _ =>
    if b = 43 then some (.status (str.drop 1))
    else if b = 45 then some (.error (str.drop 1))
    else if b = 58 then
      match parseInt64 (str.drop 1) with
      | none => none
      | some v => some (.int v)
    else some (.multiBulk (splitOnSpace str))

/-- Outcome of `readBody`. `panic` marks the `line[0]` access on an
empty line (only possible for a `\r\n` line left over after a `$0`
header inside a multi bulk). -/
inductive BodyRes where
  | ok (s : RState)
  | err
  | panic
deriving DecidableEq

/-- `readBody` (parser.go lines 313-333): strips CRLF, then dispatches
on the FIRST BYTE of the line — a `$` line sets `bulkLen` for the next
`readLine`, anything else is appended as an argument.  Note that
length-read payload lines also pass through here. -/
def readBody (msg : List Nat) (s : RState) : BodyRes :=
  match msg.take (msg.length - 2) with
  | [] => .panic
  | b :: lrest =>
    if b = 36 then
      match parseInt64 lrest with
      | none => .err
      | some L =>
        if L ≤ 0 then .ok { s with args := s.args ++ [[]], bulkLen := 0 }
        else .ok { s with bulkLen := L }
    else .ok { s with args := s.args ++ [(b :: lrest)] }

/-- Events observable on the payload channel of `parse0`:
a parsed reply, a protocol-error payload (`Payload.Err`, loop
continues), the final io-error payload (`Payload.Err`, channel closed),
a recovered panic (goroutine dies, channel never closed), or a
`Payload` with nil `Data` (the unreachable `finished` fallthrough). -/
inductive Ev where
  | reply (r : Reply)
  | protoErr
  | ioErr
  | panicked
  | nilData
deriving DecidableEq

/-- One loop body of `parse0` after a successful `readLine`
(parser.go lines 112-190): header dispatch when not reading multi-line,
`readBody` plus the `finished` check otherwise. -/
inductive StepRes where
  | emit (e : Ev)
  | cont (s : RState)
  | die
deriving DecidableEq

def handleMsg (msg : List Nat) (s : RState) : StepRes :=
  if ¬s.readingMultiLine then
    if msg.head? = some 42 then
      match parseMultiBulkHeader msg s with
      | none => .emit .protoErr
      | some s' =>
        if s'.expectedArgsCount = 0 then .emit (.reply (.multiBulk []))
        else .cont s'
    else if msg.head? = some 36 then
      match parseBulkHeader msg s with
      | none => .emit .protoErr
      | some s' =>
        if s'.bulkLen = -1 then .emit (.reply .nullBulk)
        else .cont s'
    else
      match parseSingleLineReply msg with
      | none => .emit .protoErr
      | some r => .emit (.reply r)
  else
    match readBody msg s with
    | .panic => .die
    | .err => .emit .protoErr
    | .ok s' =>
      if s'.finished then
        .emit
          (if s'.msgType = 42 then .reply (.multiBulk s'.args)
           else if s'.msgType = 36 then .reply (.bulk (s'.args.headD []))
           else .nilData)
      else .cont s'

theorem splitLine_sub (input m r : List Nat) (h : splitLine input = some (m, r)) :
    m.length + r.length = input.length ∧ 1 ≤ m.length := by
  induction input generalizing m r with
  | nil => simp [splitLine] at h
  | cons b t ih =>
    unfold splitLine at h
    by_cases hb : b = 10
    · simp only [hb, if_pos rfl, Option.some.injEq, Prod.mk.injEq] at h
      obtain ⟨rfl, rfl⟩ := h
      simp only [List.length_cons, List.length_nil]
      omega
    · rw [if_neg hb] at h
      cases hsplit : splitLine t with
      | none => rw [hsplit] at h; simp at h
      | some p =>
        obtain ⟨m', r'⟩ := p
        rw [hsplit] at h
        simp only [Option.some.injEq, Prod.mk.injEq] at h
        obtain ⟨rfl, rfl⟩ := h
        have := ih m' r' hsplit
        simp only [List.length_cons]
        omega

theorem lineCheck_ok (msg rest m r : List Nat) (bl bl' : Int)
    (h : lineCheck msg rest bl = .ok m r bl') :
    m = msg ∧ r = rest ∧ bl' = bl ∧ 2 ≤ msg.length := by
  unfold lineCheck at h
  split_ifs at h with h0 h1 h2
  injection h with e1 e2 e3
  exact ⟨e1.symm, e2.symm, e3.symm, by omega⟩

theorem lineCheck_protoErr (msg rest r : List Nat) (bl : Int)
    (h : lineCheck msg rest bl = .protoErr r) : r = rest := by
  unfold lineCheck at h
  split_ifs at h with h0 h1 h2
  · injection h with e; exact e.symm
  · injection h with e; exact e.symm

theorem bodyCheck_ok (msg rest m r : List Nat) (bl' : Int)
    (h : bodyCheck msg rest = .ok m r bl') :
    m = msg ∧ r = rest ∧ bl' = 0 ∧ 2 ≤ msg.length := by
  unfold bodyCheck at h
  split_ifs at h with h0 h1 h2
  injection h with e1 e2 e3
  exact ⟨e1.symm, e2.symm, e3.symm, by omega⟩

theorem bodyCheck_protoErr (msg rest r : List Nat)
    (h : bodyCheck msg rest = .protoErr r) : r = rest := by
  unfold bodyCheck at h
  split_ifs at h with h0 h1 h2
  · injection h with e; exact e.symm
  · injection h with e; exact e.symm

theorem readLine_ok_len (input m r : List Nat) (bl bl' : Int)
    (h : readLine input bl = .ok m r bl') : r.length < input.length ∧ bl' = 0 := by
  unfold readLine at h
  by_cases h0 : bl = 0
  · rw [if_pos h0] at h
    cases hsplit : splitLine input with
    | none => rw [hsplit] at h; exact absurd h (by simp)
    | some p =>
      obtain ⟨msg, rest⟩ := p
      rw [hsplit] at h
      have hlen := splitLine_sub input msg rest hsplit
      obtain ⟨rfl, rfl, rfl, h2⟩ := lineCheck_ok msg rest m r bl bl' h
      exact ⟨by omega, h0⟩
  · rw [if_neg h0] at h
    by_cases hneg : bl + 2 < 0
    · rw [if_pos hneg] at h; exact absurd h (by simp)
    · rw [if_neg hneg] at h
      by_cases hio : input.length < (bl + 2).toNat
      · rw [if_pos hio] at h; exact absurd h (by simp)
      · rw [if_neg hio] at h
        obtain ⟨rfl, rfl, rfl, h2⟩ := bodyCheck_ok _ _ m r bl' h
        have htk : (input.take (bl + 2).toNat).length = min (bl + 2).toNat input.length :=
          List.length_take _ _
        have hdr : (input.drop (bl + 2).toNat).length = input.length - (bl + 2).toNat :=
          List.length_drop _ _
        constructor
        · omega
        · rfl

theorem readLine_protoErr_len (input r : List Nat) (bl : Int)
    (h : readLine input bl = .protoErr r) :
    r.length ≤ input.length ∧ (bl = 0 → r.length < input.length) := by
  unfold readLine at h
  by_cases h0 : bl = 0
  · rw [if_pos h0] at h
    cases hsplit : splitLine input with
    | none => rw [hsplit] at h; exact absurd h (by simp)
    | some p =>
      obtain ⟨msg, rest⟩ := p
      rw [hsplit] at h
      have hlen := splitLine_sub input msg rest hsplit
      obtain rfl := lineCheck_protoErr msg rest r bl h
      exact ⟨by omega, fun _ => by omega⟩
  · rw [if_neg h0] at h
    by_cases hneg : bl + 2 < 0
    · rw [if_pos hneg] at h; exact absurd h (by simp)
    · rw [if_neg hneg] at h
      by_cases hio : input.length < (bl + 2).toNat
      · rw [if_pos hio] at h; exact absurd h (by simp)
      · rw [if_neg hio] at h
        obtain rfl := bodyCheck_protoErr _ _ r h
        have hdr : (input.drop (bl + 2).toNat).length = input.length - (bl + 2).toNat :=
          List.length_drop _ _
        exact ⟨by omega, fun hc => absurd hc h0⟩

/-- `parse0` (parser.go lines 79-192), as the list of events sent on the
channel for a finite input stream.  A stream that Go would leave the
goroutine blocked on never arises here: reads past the end of the input
are EOF, the `ioErr` event. -/
def parse0 (input : List Nat) (s : RState) : List Ev :=
  match hr : readLine input s.bulkLen with
  | .ioErr => [.ioErr]
  | .panicked => [.panicked]
  | .protoErr rest => .protoErr :: parse0 rest RState.init
  | .ok msg rest bl =>
    match handleMsg msg { s with bulkLen := bl } with
    | .die => [.panicked]
    | .emit e => e :: parse0 rest RState.init
    | .cont s' => parse0 rest s'
termination_by 2 * input.length + (if s.bulkLen = 0 then 0 else 1)
decreasing_by
  · have h1 := readLine_protoErr_len input rest s.bulkLen hr
    have h2 : (if RState.init.bulkLen = 0 then 0 else 1) = 0 := rfl
    rw [h2]
    by_cases hb : s.bulkLen = 0
    · rw [if_pos hb]
      have := h1.2 hb
      omega
    · rw [if_neg hb]
      have := h1.1
      omega
  · have h1 := readLine_ok_len input msg rest s.bulkLen bl hr
    have h2 : (if RState.init.bulkLen = 0 then 0 else 1) = 0 := rfl
    rw [h2]
    have := h1.1
    split <;> omega
  · have h1 := readLine_ok_len input msg rest s.bulkLen bl hr
    have := h1.1
    split <;> split <;> omega

/-- `ParseStream` / `ParseBytes` driving `parse0` from a fresh state. -/
def parseAll (input : List Nat) : List Ev := parse0 input RState.init

/-! ### Unfolding lemmas for `parse0` -/

theorem parse0_ok_step (input : List Nat) (s : RState) (msg rest : List Nat) (bl : Int)
    (h : readLine input s.bulkLen = .ok msg rest bl) :
    parse0 input s =
      match handleMsg msg { s with bulkLen := bl } with
      | .die => [.panicked]
      | .emit e => e :: parse0 rest RState.init
      | .cont s' => parse0 rest s' := by
  conv_lhs => rw [parse0]
  split
  · rename_i heq; rw [h] at heq; exact absurd heq (by simp)
  · rename_i heq; rw [h] at heq; exact absurd heq (by simp)
  · rename_i heq; rw [h] at heq; exact absurd heq (by simp)
  · rename_i m2 r2 b2 heq
    rw [h] at heq
    injection heq with e1 e2 e3
    subst e1; subst e2; subst e3
    rfl

theorem parse0_proto_step (input : List Nat) (s : RState) (rest : List Nat)
    (h : readLine input s.bulkLen = .protoErr rest) :
    parse0 input s = .protoErr :: parse0 rest RState.init := by
  conv_lhs => rw [parse0]
  split
  · rename_i heq; rw [h] at heq; exact absurd heq (by simp)
  · rename_i heq; rw [h] at heq; exact absurd heq (by simp)
  · rename_i r2 heq
    rw [h] at heq
    injection heq with e
    subst e
    rfl
  · rename_i m2 r2 b2 heq; rw [h] at heq; exact absurd heq (by simp)

theorem parseAll_nil : parseAll [] = [.ioErr] := by
  simp [parseAll, parse0, readLine, RState.init, splitLine]

/-! ### Shape lemmas for well-formed wire lines -/

theorem splitLine_app (pre rest : List Nat) (h : 10 ∉ pre) :
    splitLine (pre ++ 10 :: rest) = some (pre ++ [10], rest) := by
  induction pre with
  | nil => simp [splitLine]
  | cons b t ih =>
    have hb : b ≠ 10 := fun e => h (e ▸ List.mem_cons_self _ _)
    have ht : 10 ∉ t := fun hm => h (List.mem_cons_of_mem _ hm)
    simp [splitLine, hb, ih ht]

theorem getElem?_pen (l : List Nat) (a b : Nat) : (l ++ [a, b])[l.length]? = some a := by
  rw [List.getElem?_append_right (le_refl _)]
  simp

theorem getElem?_last (l : List Nat) (a b : Nat) : (l ++ [a, b])[l.length + 1]? = some b := by
  rw [List.getElem?_append_right (by omega)]
  simp

/-- A full header line `core ++ CRLF` (with no interior newline) is read
whole by `readLine` in line mode. -/
theorem readLine_header (core rest : List Nat) (h10 : 10 ∉ core) :
    readLine (core ++ [13, 10] ++ rest) 0 = .ok (core ++ [13, 10]) rest 0 := by
  have e : core ++ [13, 10] ++ rest = (core ++ [13]) ++ 10 :: rest := by simp
  have hsp : splitLine (core ++ [13, 10] ++ rest) = some (core ++ [13, 10], rest) := by
    rw [e, splitLine_app _ _ (by
      intro hm
      rcases List.mem_append.mp hm with h | h
      · exact h10 h
      · simp at h)]
    simp
  have hlen : (core ++ [13, 10]).length = core.length + 2 := by simp
  have h13 : (core ++ [13, 10])[(core ++ [13, 10]).length - 2]? = some 13 := by
    rw [hlen]
    have : core.length + 2 - 2 = core.length := by omega
    rw [this, getElem?_pen]
  unfold readLine
  rw [if_pos rfl, hsp]
  show lineCheck (core ++ [13, 10]) rest 0 = .ok (core ++ [13, 10]) rest 0
  unfold lineCheck
  rw [if_neg (by simp), if_neg (by rw [hlen]; omega), if_neg (by
    simp only [ne_eq, not_not]
    rw [hlen]
    simpa using getElem?_pen core 13 10)]

/-- A payload of the announced length followed by CRLF is read whole by
`readLine` in bulk mode (and `bulkLen` is reset). -/
theorem readLine_payload (payload rest : List Nat) (L : Int) (hL : L = payload.length)
    (h1 : 1 ≤ payload.length) :
    readLine (payload ++ [13, 10] ++ rest) L = .ok (payload ++ [13, 10]) rest 0 := by
  have hplen : (payload ++ [13, 10]).length = payload.length + 2 := by simp
  have hn : (payload ++ [13, 10]).length = (L + 2).toNat := by rw [hplen]; omega
  have h13 : (payload ++ [13, 10])[(payload ++ [13, 10]).length - 2]? = some 13 := by
    rw [hplen]
    have : payload.length + 2 - 2 = payload.length := by omega
    rw [this, getElem?_pen]
  have h10 : (payload ++ [13, 10])[(payload ++ [13, 10]).length - 1]? = some 10 := by
    rw [hplen]
    have : payload.length + 2 - 1 = payload.length + 1 := by omega
    rw [this, getElem?_last]
  unfold readLine
  rw [if_neg (by omega), if_neg (by omega), if_neg (by simp; omega)]
  rw [List.take_left' hn, List.drop_left' hn]
  unfold bodyCheck
  rw [if_neg (by rw [hplen]; omega), if_neg (by rw [hplen]; omega), if_neg (by
    simp only [ne_eq, not_or, not_not]
    rw [hplen]
    constructor
    · simpa using getElem?_pen payload 13 10
    · simpa using getElem?_last payload 13 10)]

theorem trimCRLF_app (core : List Nat) : trimCRLF (core ++ [13, 10]) = core := by
  unfold trimCRLF
  rw [if_pos (by simp)]
  have : (core ++ [13, 10]).length - 2 = core.length := by simp
  rw [this, List.take_left]

/-- Stripping CRLF from a line as `readBody` and the header parsers do:
`msg[1:len(msg)-2]` of a header `tag :: core ++ CRLF` is `core`. -/
theorem headerSlice (tag : Nat) (core : List Nat) :
    ((tag :: (core ++ [13, 10])).drop 1).take ((tag :: (core ++ [13, 10])).length - 3)
      = core := by
  have h1 : (tag :: (core ++ [13, 10])).drop 1 = core ++ [13, 10] := rfl
  have h2 : (tag :: (core ++ [13, 10])).length - 3 = core.length := by simp
  rw [h1, h2, List.take_left]

theorem bodySlice (tag : Nat) (core : List Nat) :
    (tag :: (core ++ [13, 10])).take ((tag :: (core ++ [13, 10])).length - 2)
      = tag :: core := by
  have h2 : (tag :: (core ++ [13, 10])).length - 2 = core.length + 1 := by simp
  rw [h2]
  simp only [List.take_succ_cons]
  rw [List.take_left]

theorem natToBytes_no10 (n : Nat) : 10 ∉ natToBytes n := by
  intro hm
  have hall := natToBytes_all_digits n
  rw [List.all_eq_true] at hall
  have := hall 10 hm
  simp [isDigitByte] at this

theorem parseInt64_natToBytes_nat (n : Nat) (h : n < 2 ^ 63) :
    parseInt64 (natToBytes n) = some (n : Int) := by
  rw [parseInt64_digits _ (natToBytes_ne_nil _) (natToBytes_all_digits _),
    digitsVal?_natToBytes]
  have h' : n < 9223372036854775808 := by omega
  simp [h']


/-! ## Well-formed reply values and the RESP round trip -/

def goodBulk (b : List Nat) : Prop := b ≠ [] ∧ b.head? ≠ some 36 ∧ b.length < 2 ^ 63

instance : DecidablePred goodBulk := fun b => by unfold goodBulk; infer_instance

def GoodReply : Reply → Prop
  | .status s => 10 ∉ s
  | .error s => 10 ∉ s
  | .int n => -(2 ^ 63) ≤ n ∧ n < 2 ^ 63
  | .bulk b => goodBulk b
  | .nullBulk => True
  | .multiBulk items => items.length < 2 ^ 32 ∧ ∀ b ∈ items, goodBulk b

instance : DecidablePred GoodReply := fun r => by
  cases r <;> unfold GoodReply <;> infer_instance

theorem parse0_nil : parse0 [] RState.init = [.ioErr] := by
  simp [parse0, readLine, RState.init, splitLine]


theorem parse0_emit (input : List Nat) (s : RState) (msg rest : List Nat) (bl : Int) (e : Ev)
    (h : readLine input s.bulkLen = .ok msg rest bl)
    (hh : handleMsg msg { s with bulkLen := bl } = .emit e) :
    parse0 input s = e :: parse0 rest RState.init := by
  rw [parse0_ok_step _ _ _ _ _ h, hh]

theorem parse0_cont (input : List Nat) (s : RState) (msg rest : List Nat) (bl : Int) (s' : RState)
    (h : readLine input s.bulkLen = .ok msg rest bl)
    (hh : handleMsg msg { s with bulkLen := bl } = .cont s') :
    parse0 input s = parse0 rest s' := by
  rw [parse0_ok_step _ _ _ _ _ h, hh]

theorem trimCRLF_cons (b : Nat) (core : List Nat) :
    trimCRLF (b :: (core ++ [13, 10])) = b :: core := by
  have h := trimCRLF_app (b :: core)
  simpa using h

theorem takeBody (core : List Nat) :
    (core ++ [13, 10]).take ((core ++ [13, 10]).length - 2) = core := by
  have h2 : (core ++ [13, 10]).length - 2 = core.length := by simp
  rw [h2, List.take_left]

theorem intToBytes_no10 (n : Int) : 10 ∉ intToBytes n := by
  unfold intToBytes
  split
  · intro hm
    rcases List.mem_cons.mp hm with e | hm2
    · simp at e
    · exact natToBytes_no10 _ hm2
  · exact natToBytes_no10 _

theorem finished_iff (s : RState) :
    s.finished = true ↔ 0 < s.expectedArgsCount ∧ s.args.length = s.expectedArgsCount := by
  simp [RState.finished]

theorem rt_status (s : List Nat) (h : 10 ∉ s) :
    parseAll (serializeReply (.status s)) = [.reply (.status s), .ioErr] := by
  have e : serializeReply (.status s) = (43 :: s) ++ [13, 10] ++ [] := by
    simp [serializeReply]
  have h0 : readLine (serializeReply (Reply.status s)) RState.init.bulkLen
      = .ok ((43 :: s) ++ [13, 10]) [] 0 := by
    rw [e]
    exact readLine_header (43 :: s) [] (by simp [h])
  have hh : handleMsg ((43 :: s) ++ [13, 10]) { RState.init with bulkLen := 0 }
      = .emit (.reply (.status s)) := by
    simp [handleMsg, RState.init, parseSingleLineReply, trimCRLF_cons]
  rw [parseAll, parse0_emit _ _ _ _ _ _ h0 hh, parse0_nil]

theorem rt_int (n : Int) (h1 : -(2 ^ 63) ≤ n) (h2 : n < 2 ^ 63) :
    parseAll (serializeReply (.int n)) = [.reply (.int n), .ioErr] := by
  have e : serializeReply (.int n) = (58 :: intToBytes n) ++ [13, 10] ++ [] := by
    simp [serializeReply]
  have h0 : readLine (serializeReply (Reply.int n)) RState.init.bulkLen
      = .ok ((58 :: intToBytes n) ++ [13, 10]) [] 0 := by
    rw [e]
    exact readLine_header (58 :: intToBytes n) [] (by simp [intToBytes_no10])
  have hh : handleMsg ((58 :: intToBytes n) ++ [13, 10]) { RState.init with bulkLen := 0 }
      = .emit (.reply (.int n)) := by
    simp [handleMsg, RState.init, parseSingleLineReply, trimCRLF_cons,
      parseInt64_intToBytes n h1 h2]
  rw [parseAll, parse0_emit _ _ _ _ _ _ h0 hh, parse0_nil]

theorem rt_null : parseAll (serializeReply .nullBulk) = [.reply .nullBulk, .ioErr] := by
  simp [parseAll, parse0, readLine, RState.init, splitLine, lineCheck, handleMsg,
    parseBulkHeader, parseInt64, digitsVal?, isDigitByte]

theorem rt_bulk (b : List Nat) (hne : b ≠ []) (h36 : b.head? ≠ some 36)
    (hlen : b.length < 2 ^ 63) :
    parseAll (serializeReply (.bulk b)) = [.reply (.bulk b), .ioErr] := by
  have hb1 : 1 ≤ b.length := List.length_pos.mpr hne
  have e : serializeReply (.bulk b)
      = (36 :: natToBytes b.length) ++ [13, 10] ++ (b ++ [13, 10] ++ []) := by
    simp [serializeReply, bulkSer]
  have h0 : readLine (serializeReply (Reply.bulk b)) RState.init.bulkLen
      = .ok ((36 :: natToBytes b.length) ++ [13, 10]) (b ++ [13, 10] ++ []) 0 := by
    rw [e]
    exact readLine_header _ _ (by simp [natToBytes_no10])
  have hgt : (0 : Int) < (b.length : Int) := by exact_mod_cast hb1
  have hh : handleMsg ((36 :: natToBytes b.length) ++ [13, 10]) { RState.init with bulkLen := 0 }
      = .cont ⟨true, 1, 36, [], (b.length : Int)⟩ := by
    have hm1 : ((b.length : Int)) ≠ -1 := by omega
    simp [handleMsg, RState.init, parseBulkHeader, headerSlice,
      parseInt64_natToBytes_nat _ hlen, hm1, hgt]
  rw [parseAll, parse0_cont _ _ _ _ _ _ h0 hh]
  have h1 : readLine (b ++ [13, 10] ++ []) ((⟨true, 1, 36, [], (b.length : Int)⟩ : RState)).bulkLen
      = .ok (b ++ [13, 10]) [] 0 :=
    readLine_payload b [] _ rfl hb1
  cases b with
  | nil => exact absurd rfl hne
  | cons hb tb =>
    have hb36 : hb ≠ 36 := by simpa using h36
    have hh2 : handleMsg ((hb :: tb) ++ [13, 10])
        { (⟨true, 1, 36, [], ((hb :: tb).length : Int)⟩ : RState) with bulkLen := 0 }
        = .emit (.reply (.bulk (hb :: tb))) := by
      simp [handleMsg, readBody, takeBody, hb36, RState.finished]
    rw [parse0_emit _ _ _ _ _ _ h1 hh2, parse0_nil]


theorem parse0_items (items : List (List Nat)) :
    ∀ (acc : List (List Nat)) (rest : List Nat),
    items ≠ [] →
    (∀ b ∈ items, goodBulk b) →
    parse0 ((items.map bulkSer).flatten ++ rest)
      ⟨true, acc.length + items.length, 42, acc, 0⟩ =
      .reply (.multiBulk (acc ++ items)) :: parse0 rest RState.init := by
  induction items with
  | nil => intro acc rest hne _; exact absurd rfl hne
  | cons b t ih =>
    intro acc rest _ hgood
    obtain ⟨hbne, hb36h, hblen⟩ := hgood b (List.mem_cons_self _ _)
    have hb1 : 1 ≤ b.length := List.length_pos.mpr hbne
    have hgt : (0 : Int) < (b.length : Int) := by exact_mod_cast hb1
    have e : (((b :: t).map bulkSer).flatten ++ rest)
        = (36 :: natToBytes b.length) ++ [13, 10]
          ++ (b ++ [13, 10] ++ ((t.map bulkSer).flatten ++ rest)) := by
      simp [bulkSer]
    have h0 : readLine (((b :: t).map bulkSer).flatten ++ rest)
        ((⟨true, acc.length + (b :: t).length, 42, acc, 0⟩ : RState)).bulkLen
        = .ok ((36 :: natToBytes b.length) ++ [13, 10])
            (b ++ [13, 10] ++ ((t.map bulkSer).flatten ++ rest)) 0 := by
      show readLine (((b :: t).map bulkSer).flatten ++ rest) 0 = _
      rw [e]
      exact readLine_header _ _ (by simp [natToBytes_no10])
    have hnle : ¬((b.length : Int) ≤ 0) := by omega
    have hne1 : acc.length ≠ acc.length + (t.length + 1) := by omega
    have hh : handleMsg ((36 :: natToBytes b.length) ++ [13, 10])
        { (⟨true, acc.length + (b :: t).length, 42, acc, 0⟩ : RState) with bulkLen := 0 }
        = .cont ⟨true, acc.length + (b :: t).length, 42, acc, (b.length : Int)⟩ := by
      simp [handleMsg, readBody, takeBody, parseInt64_natToBytes_nat _ hblen, hnle,
        RState.finished, hne1]
    rw [parse0_cont _ _ _ _ _ _ h0 hh]
    have h1 : readLine (b ++ [13, 10] ++ ((t.map bulkSer).flatten ++ rest))
        ((⟨true, acc.length + (b :: t).length, 42, acc, (b.length : Int)⟩ : RState)).bulkLen
        = .ok (b ++ [13, 10]) ((t.map bulkSer).flatten ++ rest) 0 :=
      readLine_payload b _ _ rfl hb1
    obtain ⟨hb, tb, rfl⟩ := List.exists_cons_of_ne_nil hbne
    have hb36 : hb ≠ 36 := by simpa using hb36h
    cases t with
    | nil =>
      have hh2 : handleMsg ((hb :: tb) ++ [13, 10])
          { (⟨true, acc.length + ((hb :: tb) :: ([] : List (List Nat))).length, 42, acc,
              ((hb :: tb).length : Int)⟩ : RState) with bulkLen := 0 }
          = .emit (.reply (.multiBulk (acc ++ [hb :: tb]))) := by
        simp [handleMsg, readBody, takeBody, hb36, RState.finished]
      rw [parse0_emit _ _ _ _ _ _ h1 hh2]
      simp
    | cons c u =>
      have hne2 : acc.length + 1 ≠ acc.length + (u.length + 1 + 1) := by omega
      have hh2 : handleMsg ((hb :: tb) ++ [13, 10])
          { (⟨true, acc.length + ((hb :: tb) :: c :: u).length, 42, acc,
              ((hb :: tb).length : Int)⟩ : RState) with bulkLen := 0 }
          = .cont ⟨true, acc.length + ((hb :: tb) :: c :: u).length, 42,
              acc ++ [hb :: tb], 0⟩ := by
        simp [handleMsg, readBody, takeBody, hb36, RState.finished, hne2]
      rw [parse0_cont _ _ _ _ _ _ h1 hh2]
      have hcnt : acc.length + ((hb :: tb) :: c :: u).length
          = (acc ++ [hb :: tb]).length + (c :: u).length := by
        simp
        omega
      rw [hcnt, ih (acc ++ [hb :: tb]) rest (by simp)
        (fun x hx => hgood x (List.mem_cons_of_mem _ hx))]
      simp

theorem rt_multi (items : List (List Nat)) (hlen32 : items.length < 2 ^ 32)
    (hgood : ∀ b ∈ items, goodBulk b) :
    parseAll (serializeReply (.multiBulk items)) = [.reply (.multiBulk items), .ioErr] := by
  cases items with
  | nil =>
    simp [parseAll, parse0, serializeReply, natToBytes, readLine, RState.init, splitLine,
      lineCheck, handleMsg, parseMultiBulkHeader, parseUint32, digitsVal?, isDigitByte]
  | cons b t =>
    have e : serializeReply (.multiBulk (b :: t))
        = (42 :: natToBytes (b :: t).length) ++ [13, 10]
          ++ (((b :: t).map bulkSer).flatten ++ []) := by
      simp [serializeReply]
    have h0 : readLine (serializeReply (.multiBulk (b :: t))) RState.init.bulkLen
        = .ok ((42 :: natToBytes (b :: t).length) ++ [13, 10])
            (((b :: t).map bulkSer).flatten ++ []) 0 := by
      rw [e]
      exact readLine_header _ _ (by simp [natToBytes_no10])
    have hp : parseUint32 (natToBytes (t.length + 1)) = some (t.length + 1) :=
      parseUint32_natToBytes _ (by simpa using hlen32)
    have hh : handleMsg ((42 :: natToBytes (b :: t).length) ++ [13, 10])
        { RState.init with bulkLen := 0 }
        = .cont ⟨true, (b :: t).length, 42, [], 0⟩ := by
      simp [handleMsg, RState.init, parseMultiBulkHeader, headerSlice, hp]
    rw [parseAll, parse0_cont _ _ _ _ _ _ h0 hh]
    have hi := parse0_items (b :: t) [] [] (by simp) hgood
    simpa [parse0_nil] using hi

theorem rt_error (s : List Nat) (h : 10 ∉ s) :
    parseAll (serializeReply (.error s)) = [.reply (.error s), .ioErr] := by
  have e : serializeReply (.error s) = (45 :: s) ++ [13, 10] ++ [] := by
    simp [serializeReply]
  have h0 : readLine (serializeReply (Reply.error s)) RState.init.bulkLen
      = .ok ((45 :: s) ++ [13, 10]) [] 0 := by
    rw [e]
    exact readLine_header (45 :: s) [] (by simp [h])
  have hh : handleMsg ((45 :: s) ++ [13, 10]) { RState.init with bulkLen := 0 }
      = .emit (.reply (.error s)) := by
    simp [handleMsg, RState.init, parseSingleLineReply, trimCRLF_cons]
  rw [parseAll, parse0_emit _ _ _ _ _ _ h0 hh, parse0_nil]

/-! ## Claims about the RESP codec -/

/-- C1 (corrected).  RESP round trip for the reply values whose
serialization the parser does read back: status and error payloads with
no newline byte, int64 integers, the null bulk, the empty multi bulk,
and bulk / multi-bulk replies whose payloads are all non-empty and do
not start with the byte `$` (with fewer than 2^32 array items and
payloads shorter than 2^63): parsing the serialization yields exactly
the original reply followed by the end-of-stream event. -/
theorem resp_roundtrip_good (R : Reply) (h : GoodReply R) :
    parseAll (serializeReply R) = [.reply R, .ioErr] := by
  cases R with
  | status s => exact rt_status s h
  | error s => exact rt_error s h
  | int n => exact rt_int n h.1 h.2
  | bulk b => exact rt_bulk b h.1 h.2.1 h.2.2
  | nullBulk => exact rt_null
  | multiBulk items => exact rt_multi items h.1 h.2

/-- C1 witness: the round trip evaluated at the multi-bulk command
`SET k v`. -/
theorem resp_roundtrip_good_witness :
    GoodReply (.multiBulk [[83, 69, 84], [107], [118]]) ∧
    parseAll (serializeReply (.multiBulk [[83, 69, 84], [107], [118]]))
      = [.reply (.multiBulk [[83, 69, 84], [107], [118]]), .ioErr] :=
  ⟨by unfold GoodReply; refine ⟨by norm_num, ?_⟩; decide,
    resp_roundtrip_good _ (by unfold GoodReply; refine ⟨by norm_num, ?_⟩; decide)⟩

/-- C1 counterexample: the empty bulk — a reply value the claim names
explicitly — serializes to `$0\r\n\r\n`, which the parser rejects as a
protocol error (and then misreads the dangling CRLF as an inline
command), so parse ∘ serialize is not the identity on it. -/
theorem resp_roundtrip_empty_bulk_fails :
    serializeReply (.bulk []) = [36, 48, 13, 10, 13, 10] ∧
    parseAll [36, 48, 13, 10, 13, 10]
      = [.protoErr, .reply (.multiBulk [[]]), .ioErr] ∧
    parseAll (serializeReply (.bulk [])) ≠ [.reply (.bulk []), .ioErr] := by
  have h1 : serializeReply (.bulk []) = [36, 48, 13, 10, 13, 10] := by
    simp [serializeReply, bulkSer, natToBytes]
  have h2 : parseAll [36, 48, 13, 10, 13, 10]
      = [.protoErr, .reply (.multiBulk [[]]), .ioErr] := by
    simp [parseAll, parse0, readLine, RState.init, splitLine, lineCheck, bodyCheck,
      handleMsg, parseMultiBulkHeader, parseBulkHeader, parseSingleLineReply,
      parseUint32, parseInt64, digitsVal?, isDigitByte, readBody, RState.finished,
      trimCRLF, splitOnSpace]
  exact ⟨h1, h2, by rw [h1, h2]; simp⟩

/-- C2 (code_bug).  Binary-safe multi-bulk parsing fails for a payload
whose first byte is `$`: on the wire message `*1\r\n$2\r\n$5\r\n` —
a one-element multi bulk whose bulk payload is the two bytes `$5` —
`readBody` re-reads the length-read payload line as a bulk header
(setting `bulkLen := 5`), never appends the argument, and the parser
emits no multi-bulk reply at all: the only event is the io error at end
of input, instead of `MultiBulk ["$5"]`. -/
theorem dollar_payload_swallowed :
    parseAll [42, 49, 13, 10, 36, 50, 13, 10, 36, 53, 13, 10] = [.ioErr] ∧
    parseAll [42, 49, 13, 10, 36, 50, 13, 10, 36, 53, 13, 10]
      ≠ [.reply (.multiBulk [[36, 53]]), .ioErr] := by
  have h1 : parseAll [42, 49, 13, 10, 36, 50, 13, 10, 36, 53, 13, 10] = [.ioErr] := by
    simp [parseAll, parse0, readLine, RState.init, splitLine, lineCheck, bodyCheck,
      handleMsg, parseMultiBulkHeader, parseBulkHeader, parseSingleLineReply,
      parseUint32, parseInt64, digitsVal?, isDigitByte, readBody, RState.finished,
      trimCRLF, splitOnSpace]
  exact ⟨h1, by rw [h1]; simp⟩

/-- C6 counterexample: the standalone message `$0\r\n\r\n` (a zero-length
bulk with its CRLF-terminated empty payload) is NOT parsed as an empty
bulk string: `parseBulkHeader` treats the length 0 as a protocol error,
and the payload's CRLF is then read as an inline-command line. -/
theorem zero_bulk_counterexample :
    parseAll [36, 48, 13, 10, 13, 10]
      = [.protoErr, .reply (.multiBulk [[]]), .ioErr] ∧
    parseAll [36, 48, 13, 10, 13, 10] ≠ [.reply (.bulk []), .ioErr] := by
  have h1 : parseAll [36, 48, 13, 10, 13, 10]
      = [.protoErr, .reply (.multiBulk [[]]), .ioErr] := by
    simp [parseAll, parse0, readLine, RState.init, splitLine, lineCheck, bodyCheck,
      handleMsg, parseMultiBulkHeader, parseBulkHeader, parseSingleLineReply,
      parseUint32, parseInt64, digitsVal?, isDigitByte, readBody, RState.finished,
      trimCRLF, splitOnSpace]
  exact ⟨h1, by rw [h1]; simp⟩

/-- C6 (corrected, amended).  A standalone `$0` header IS a protocol
error: `parseBulkHeader` accepts only the length −1 (null bulk) or
strictly positive lengths.  The parser emits exactly one error payload
for the `$0\r\n` line, fully resets its state, and the next byte starts
a fresh message. -/
theorem zero_bulk_is_protocol_error (rest : List Nat) :
    parseAll ([36, 48, 13, 10] ++ rest) = .protoErr :: parseAll rest := by
  have h : readLine ([36, 48, 13, 10] ++ rest) RState.init.bulkLen
      = .ok [36, 48, 13, 10] rest 0 := by
    simp [readLine, RState.init, splitLine, lineCheck]
  rw [parseAll, parse0_ok_step _ _ _ _ _ h]
  simp [handleMsg, RState.init, parseBulkHeader, parseInt64, digitsVal?, isDigitByte,
    parseAll]

/-- C10 (code_bug).  A line consisting of a single `\n` with no
preceding `\r` makes `readLine` evaluate `msg[len(msg)-2]` with
`len(msg) = 1` — an out-of-range index.  The deferred `recover` in
`parse0` swallows the panic and the goroutine dies: no protocol-error
payload is emitted and no further input is processed, whatever follows. -/
theorem lone_newline_panics (rest : List Nat) :
    parseAll (10 :: rest) = [.panicked] := by
  have h : readLine (10 :: rest) RState.init.bulkLen = .panicked := by
    simp [readLine, RState.init, splitLine, lineCheck]
  rw [parseAll, parse0]
  split <;> rename_i heq <;> rw [h] at heq <;> first | rfl | exact absurd heq (by simp)

/-! ## The keyspace

The `DB` engine itself (`db.go`: `GetEntity`, `PutEntity`, `Remove`,
`Removes`, `Expire`, `Persist`, `Flush`, `addAof`, the `ttlMap`) is not
among the given sources — only its callers in the keyspace-command file
are.  The engine is therefore modelled from the spec's §4.2 Keyspace
interface; the command executors below are translated from the source
file (`execDel` … `execKeys`).  Instants are int64 nanoseconds (the
resolution of `time.Duration` / `Time.UnixNano`); the wrapping int64
arithmetic Go performs on durations is modelled explicitly with
`wrap64`. -/

/-- Keys are binary-safe byte strings (`string(arg)` in Go). -/
abbrev Key := List Nat

/-- An opaque typed entity; the claims never inspect the payload. -/
structure Entity where
  id : Nat
deriving DecidableEq

/-- Association-list lookup (shard map `Get`). -/
def alookup {α : Type} (m : List (Key × α)) (k : Key) : Option α :=
  match m with
  | [] => none
  | (k', v) :: t => if k' = k then some v else alookup t k

/-- Association-list insert-or-replace (shard map `Put`). -/
def aput {α : Type} (m : List (Key × α)) (k : Key) (v : α) : List (Key × α) :=
  match m with
  | [] => [(k, v)]
  | (k', v') :: t => if k' = k then (k, v) :: t else (k', v') :: aput t k v

/-- Association-list removal (shard map `Remove`). -/
def aremove {α : Type} (m : List (Key × α)) (k : Key) : List (Key × α) :=
  m.filter (fun p => ¬(p.1 = k))

/-- Modelled from the spec: the keyspace state — the `K → Entity`
mapping, the companion `K → Instant` TTL mapping, and the AOF sink's
record list (each record one command line). -/
structure DB where
  data : List (Key × Entity)
  ttlMap : List (Key × Int)
  aof : List (List Key)
deriving DecidableEq

/-- Modelled from the spec: `remove(k)` — removes the entity and any TTL
entry. -/
def DB.remove (db : DB) (k : Key) : DB :=
  { db with data := aremove db.data k, ttlMap := aremove db.ttlMap k }

/-- Modelled from the spec: `get(k)` honoring lazy expiration — a read
that finds a key whose TTL ≤ now removes it and reports absent. -/
def DB.getEntity (db : DB) (now : Int) (k : Key) : Option Entity × DB :=
  match alookup db.data k with
  | none => (none, db)
  | some e =>
    match alookup db.ttlMap k with
    | some t => if t ≤ now then (none, db.remove k) else (some e, db)
    | none => (some e, db)

/-- Modelled from the spec: `put(k, entity)` — inserts or overwrites,
does not touch the TTL. -/
def DB.putEntity (db : DB) (k : Key) (e : Entity) : DB :=
  { db with data := aput db.data k e }

/-- Modelled from the spec: `removeMany(ks…)` — batch remove, returns
the count removed. -/
def DB.removes (db : DB) (ks : List Key) : Nat × DB :=
  ks.foldl
    (fun (p : Nat × DB) k =>
      match alookup p.2.data k with
      | some _ => (p.1 + 1, p.2.remove k)
      | none => p)
    (0, db)

/-- Modelled from the spec: `expire(k, instant)` — sets the absolute
expiration, overriding any prior. -/
def DB.expire (db : DB) (k : Key) (t : Int) : DB :=
  { db with ttlMap := aput db.ttlMap k t }

/-- Modelled from the spec: `persist(k)` — removes any TTL entry. -/
def DB.persist (db : DB) (k : Key) : DB :=
  { db with ttlMap := aremove db.ttlMap k }

/-- Modelled from the spec: `flush()` — clears all keys and TTLs. -/
def DB.flush (db : DB) : DB :=
  { db with data := [], ttlMap := [] }

/-- Modelled from the spec: the AOF sink — `addAof` appends one
RESP-encoded command line. -/
def DB.addAof (db : DB) (cmd : List Key) : DB :=
  { db with aof := db.aof ++ [cmd] }

/-- Go's wrapping two's-complement int64 arithmetic: the representative
of `x` mod 2^64 in `[-2^63, 2^63)`. -/
def wrap64 (x : Int) : Int := (x + 2 ^ 63) % 2 ^ 64 - 2 ^ 63

theorem wrap64_id (x : Int) (h1 : -(2 ^ 63) ≤ x) (h2 : x < 2 ^ 63) : wrap64 x = x := by
  unfold wrap64
  have h3 : (0 : Int) ≤ x + 2 ^ 63 := by omega
  have h4 : x + 2 ^ 63 < 2 ^ 64 := by omega
  rw [Int.emod_eq_of_lt h3 h4]
  omega

/-- Modelled from the spec: `aof.MakeExpireCmd` — the canonical
`PEXPIREAT k ms-since-epoch` rewriting of an expiration (the instant's
nanoseconds divided by 10^6, Go division truncating toward zero). -/
def makeExpireCmd (k : Key) (t : Int) : List Key :=
  [strBytes "PEXPIREAT", k, intToBytes (Int.tdiv t 1000000)]

theorem length_dropWhile_le' {α : Type} (p : α → Bool) (l : List α) :
    (l.dropWhile p).length ≤ l.length := by
  induction l with
  | nil => simp
  | cons a t ih => by_cases h : p a <;> simp [List.dropWhile, h] <;> omega

/-- Modelled from the spec: the `lib/wildcard` glob matcher over key
bytes — `*` (any run), `?` (any one byte), `[...]` (byte set), literal
bytes. -/
def globMatch (p : List Nat) (s : List Nat) : Bool :=
  match p, s with
  | [], s => s.isEmpty
  | 42 :: ps, s =>
    globMatch ps s ||
      (match s with
       | [] => false
       | _ :: s' => globMatch (42 :: ps) s')
  | 63 :: ps, s =>
    (match s with
     | [] => false
     | _ :: s' => globMatch ps s')
  | 91 :: ps, s =>
    (match s with
     | [] => false
     | c :: s' =>
       decide (c ∈ ps.takeWhile (fun b => ¬(b = 93))) &&
         globMatch ((ps.dropWhile (fun b => ¬(b = 93))).drop 1) s')
  | pb :: ps, s =>
    (match s with
     | [] => false
     | c :: s' => pb == c && globMatch ps s')
termination_by (p.length, s.length)
decreasing_by
  · exact Prod.Lex.left _ _ (by simp)
  · exact Prod.Lex.right _ (by simp)
  · exact Prod.Lex.left _ _ (by simp)
  · refine Prod.Lex.left _ _ ?_
    have h1 := length_dropWhile_le' (fun b => decide ¬(b = 93)) ps
    have h2 := List.length_drop 1 (ps.dropWhile (fun b => ¬(b = 93)))
    simp only [List.length_cons]
    omega
  · exact Prod.Lex.left _ _ (by simp)

/-! ## The keyspace command executors (source file, lines 17-291) -/

/-- `execDel` (source lines 17-29): batch remove; append the `del`
command to the AOF only when at least one key was removed; reply the
count. -/
def execDel (db : DB) (args : List Key) : Reply × DB :=
  let res := db.removes args
  let db' := if 0 < res.1 then res.2.addAof (strBytes "del" :: args) else res.2
  (.int res.1, db')

/-- `execFlushDB` (source lines 52-57). -/
def execFlushDB (db : DB) (args : List Key) : Reply × DB :=
  (.status (strBytes "OK"), db.flush.addAof (strBytes "flushdb" :: args))

/-- `execRename` (source lines 87-110): explicit arity guard, then
`GetEntity(src)`, `ttlMap.Get(src)`, `PutEntity(dest)`, `Remove(src)`,
and if the source had a TTL `Persist(src); Persist(dest); Expire(dest)`;
finally the AOF record and `+OK`. -/
def execRename (db : DB) (now : Int) (args : List Key) : Reply × DB :=
  match args with
  | [src, dest] =>
    match db.getEntity now src with
    | (none, db1) => (.error (strBytes "no such key"), db1)
    | (some entity, db1) =>
      let rawTTL := alookup db1.ttlMap src
      let db2 := (db1.putEntity dest entity).remove src
      let db3 :=
        match rawTTL with
        | some expireTime => ((db2.persist src).persist dest).expire dest expireTime
        | none => db2
      (.status (strBytes "OK"), db3.addAof [strBytes "rename", src, dest])
  | _ => (.error (strBytes "ERR wrong number of arguments for 'rename' command"), db)

/-- `execRenameNx` (source lines 118-143): reply 0 with no action when
the destination exists; otherwise `Removes(src, dest)`,
`PutEntity(dest)`, TTL carry-over, AOF record and reply 1.  (The
dispatcher's arity rule 3 guarantees two arguments; Go would panic on
fewer.) -/
def execRenameNx (db : DB) (now : Int) (args : List Key) : Reply × DB :=
  match args with
  | [src, dest] =>
    match db.getEntity now dest with
    | (some _, db1) => (.int 0, db1)
    | (none, db1) =>
      match db1.getEntity now src with
      | (none, db2) => (.error (strBytes "no such key"), db2)
      | (some entity, db2) =>
        let rawTTL := alookup db2.ttlMap src
        let db3 := (db2.removes [src, dest]).2
        let db4 := db3.putEntity dest entity
        let db5 :=
          match rawTTL with
          | some expireTime => ((db4.persist src).persist dest).expire dest expireTime
          | none => db4
        (.int 1, db5.addAof [strBytes "renamenx", src, dest])
  | _ => (.error (strBytes "ERR wrong number of arguments for 'renamenx' command"), db)

/-- `execExpire` (source lines 145-164): parse the seconds argument
(`ParseInt` base 10, 64 bits; failure replies the canonical integer
error), reply 0 when the key is absent, else set the absolute
expiration `now.Add(ttl)` and append the canonical `PEXPIREAT` record.
`ttl := time.Duration(ttlArg) * time.Second` is a WRAPPING int64
multiplication by 10^9 nanoseconds, and `Time.Add` a wrapping int64
addition — for `|ttlArg| ≥ 2^63/10^9` the stored expiration wraps.
(The dispatcher's arity rule 3 guarantees two arguments.) -/
def execExpire (db : DB) (now : Int) (args : List Key) : Reply × DB :=
  match args with
  | [key, sArg] =>
    match parseInt64 sArg with
    | none => (.error (strBytes "ERR value is not an integer or out of range"), db)
    | some ttlArg =>
      let ttl := wrap64 (ttlArg * 1000000000)
      match db.getEntity now key with
      | (none, db1) => (.int 0, db1)
      | (some _, db1) =>
        let expireAt := wrap64 (now + ttl)
        (.int 1, (db1.expire key expireAt).addAof (makeExpireCmd key expireAt))
  | _ => (.error (strBytes "ERR wrong number of arguments for 'expire' command"), db)

/-- `execPExpire` (source lines 186-205): the milliseconds variant —
`ttl := time.Duration(ttlArg) * time.Millisecond` is a wrapping int64
multiplication by 10^6 nanoseconds, then as `execExpire`. -/
def execPExpire (db : DB) (now : Int) (args : List Key) : Reply × DB :=
  match args with
  | [key, sArg] =>
    match parseInt64 sArg with
    | none => (.error (strBytes "ERR value is not an integer or out of range"), db)
    | some ttlArg =>
      let ttl := wrap64 (ttlArg * 1000000)
      match db.getEntity now key with
      | (none, db1) => (.int 0, db1)
      | (some _, db1) =>
        let expireAt := wrap64 (now + ttl)
        (.int 1, (db1.expire key expireAt).addAof (makeExpireCmd key expireAt))
  | _ => (.error (strBytes "ERR wrong number of arguments for 'pexpire' command"), db)

/-- `execExpireAt` (source lines 166-184): absolute unix seconds —
`expireAt := time.Unix(raw, 0)`.  A `time.Time` carries whole seconds
(no int64-nanosecond conversion), so the instant is the exact
`raw * 10^9` nanoseconds. -/
def execExpireAt (db : DB) (now : Int) (args : List Key) : Reply × DB :=
  match args with
  | [key, sArg] =>
    match parseInt64 sArg with
    | none => (.error (strBytes "ERR value is not an integer or out of range"), db)
    | some raw =>
      let expireAt := raw * 1000000000
      match db.getEntity now key with
      | (none, db1) => (.int 0, db1)
      | (some _, db1) =>
        (.int 1, (db1.expire key expireAt).addAof (makeExpireCmd key expireAt))
  | _ => (.error (strBytes "ERR wrong number of arguments for 'expireat' command"), db)

/-- `execPExpireAt` (source lines 208-226): absolute unix milliseconds —
`expireAt := time.Unix(0, raw*int64(time.Millisecond))`, whose argument
`raw * 10^6` is a wrapping int64 product. -/
def execPExpireAt (db : DB) (now : Int) (args : List Key) : Reply × DB :=
  match args with
  | [key, sArg] =>
    match parseInt64 sArg with
    | none => (.error (strBytes "ERR value is not an integer or out of range"), db)
    | some raw =>
      let expireAt := wrap64 (raw * 1000000)
      match db.getEntity now key with
      | (none, db1) => (.int 0, db1)
      | (some _, db1) =>
        (.int 1, (db1.expire key expireAt).addAof (makeExpireCmd key expireAt))
  | _ => (.error (strBytes "ERR wrong number of arguments for 'pexpireat' command"), db)

/-- `execPersist` (source lines 262-278): reply 0 when the key is
absent or carries no TTL; else remove the TTL, append the record, reply
1. -/
def execPersist (db : DB) (now : Int) (args : List Key) : Reply × DB :=
  match args with
  | [key] =>
    match db.getEntity now key with
    | (none, db1) => (.int 0, db1)
    | (some _, db1) =>
      match alookup db1.ttlMap key with
      | none => (.int 0, db1)
      | some _ => (.int 1, (db1.persist key).addAof [strBytes "persist", key])
  | _ => (.error (strBytes "ERR wrong number of arguments for 'persist' command"), db)

/-- `execKeys` (source lines 280-291): iterate the data map, collect the
keys the glob pattern matches — no TTL consulted. -/
def execKeys (db : DB) (args : List Key) : Reply × DB :=
  match args with
  | [pat] =>
    (.multiBulk
      (db.data.foldl
        (fun acc p => if globMatch pat p.1 then acc ++ [p.1] else acc) []),
     db)
  | _ => (.error (strBytes "ERR wrong number of arguments for 'keys' command"), db)

/-- `(redis.Reply).isErr`: the reply is an error reply. -/
def Reply.isErr : Reply → Bool
  | .error _ => true
  | _ => false

/-! ### Engine facts -/

theorem getEntity_aof (db : DB) (now : Int) (k : Key) :
    (db.getEntity now k).2.aof = db.aof := by
  unfold DB.getEntity
  cases alookup db.data k with
  | none => rfl
  | some e =>
    cases alookup db.ttlMap k with
    | none => rfl
    | some t =>
      by_cases h : t ≤ now
      · simp [h, DB.remove]
      · simp [h]

theorem getEntity_pres (db : DB) (now : Int) (k : Key) (e : Entity)
    (h : (db.getEntity now k).1 = some e) : db.getEntity now k = (some e, db) := by
  unfold DB.getEntity at h ⊢
  cases hd : alookup db.data k with
  | none => simp [hd] at h
  | some e' =>
    simp only [hd] at h ⊢
    cases ht : alookup db.ttlMap k with
    | none =>
      simp only [ht] at h ⊢
      simp at h
      rw [h]
    | some t =>
      simp only [ht] at h ⊢
      by_cases hle : t ≤ now
      · simp [if_pos hle] at h
      · simp only [if_neg hle] at h ⊢
        simp at h
        rw [h]

theorem removesAux_aof (ks : List Key) : ∀ p : Nat × DB,
    (ks.foldl
      (fun (p : Nat × DB) k =>
        match alookup p.2.data k with
        | some _ => (p.1 + 1, p.2.remove k)
        | none => p) p).2.aof = p.2.aof := by
  induction ks with
  | nil => intro p; rfl
  | cons a t ih =>
    intro p
    rw [List.foldl_cons, ih]
    cases h : alookup p.2.data a <;> simp [h, DB.remove]

theorem removes_aof (db : DB) (ks : List Key) : (db.removes ks).2.aof = db.aof :=
  removesAux_aof ks (0, db)

/-! ## Claims about the keyspace commands -/

/-- C3 (code_bug).  `RENAME k k` on a keyspace where `k` holds an entity
replies `+OK` but DELETES the key: `PutEntity(dest)` is immediately
undone by `Remove(src)` when `src = dest`, so the destination does not
hold the source's former entity as the spec requires. -/
theorem rename_self_deletes_key :
    (execRename ⟨[([107], ⟨7⟩)], [], []⟩ 0 [[107], [107]]).1
      = .status (strBytes "OK") ∧
    alookup (execRename ⟨[([107], ⟨7⟩)], [], []⟩ 0 [[107], [107]]).2.data [107]
      = none := by
  decide

/-- C4 (code_bug).  `RENAME k k` on a key carrying a TTL leaves an
ORPHAN TTL entry: after `Remove(src)` has deleted both the entity and
the TTL, the `hasTTL` branch calls `Expire(dest)` on the now-absent key,
so the TTL mapping holds a key the keyspace mapping does not. -/
theorem rename_self_orphan_ttl :
    alookup (execRename ⟨[([107], ⟨7⟩)], [([107], 5)], []⟩ 0
      [[107], [107]]).2.data [107] = none ∧
    alookup (execRename ⟨[([107], ⟨7⟩)], [([107], 5)], []⟩ 0
      [[107], [107]]).2.ttlMap [107] = some 5 := by
  decide

/-- C5 counterexample: with key `a` expired (TTL 5 ≤ now = 10) but not
yet lazily removed, `KEYS *` still lists `a` — the claim that the KEYS
reply contains no key whose TTL ≤ now is false. -/
theorem keys_lists_expired_key :
    alookup (⟨[([97], ⟨1⟩)], [([97], 5)], []⟩ : DB).ttlMap [97] = some 5 ∧
    ((5 : Int) ≤ 10) ∧
    (execKeys ⟨[([97], ⟨1⟩)], [([97], 5)], []⟩ [[42]]).1 = .multiBulk [[97]] := by
  refine ⟨by decide, by decide, ?_⟩
  simp [execKeys, globMatch]

theorem keysFold_mem (pat : Key) (k : Key) :
    ∀ (l : List (Key × Entity)) (acc : List Key),
    (k ∈ acc ∨ ∃ e, (k, e) ∈ l ∧ globMatch pat k = true) →
    k ∈ l.foldl (fun acc p => if globMatch pat p.1 then acc ++ [p.1] else acc) acc := by
  intro l
  induction l with
  | nil =>
    intro acc h
    rcases h with h | ⟨e, he, _⟩
    · exact h
    · simp at he
  | cons p t ih =>
    intro acc h
    rw [List.foldl_cons]
    apply ih
    rcases h with h | ⟨e, he, hm⟩
    · left
      split
      · exact List.mem_append_left _ h
      · exact h
    · rcases List.mem_cons.mp he with he1 | he2
      · left
        have hk : p.1 = k := by rw [← he1]
        rw [hk, if_pos hm]
        exact List.mem_append_right _ (List.mem_singleton.mpr rfl)
      · exact Or.inr ⟨e, he2, hm⟩

/-- C5 (corrected, amended).  `execKeys` matches the pattern against
every key of the data map WITHOUT consulting the TTL mapping: every
stored key the glob matches appears in the reply, whether or not its
TTL has passed. -/
theorem keys_ignores_ttl (db : DB) (pat k : Key) (e : Entity)
    (hmem : (k, e) ∈ db.data) (hmatch : globMatch pat k = true) :
    ∃ res, (execKeys db [pat]).1 = .multiBulk res ∧ k ∈ res := by
  refine ⟨_, rfl, ?_⟩
  exact keysFold_mem pat k db.data [] (Or.inr ⟨e, hmem, hmatch⟩)

/-- C5 witness: the expired key `a` of the counterexample state is
listed by `KEYS *`. -/
theorem keys_ignores_ttl_witness :
    ∃ res, (execKeys ⟨[([97], ⟨1⟩)], [([97], 5)], []⟩ [[42]]).1 = .multiBulk res ∧
      [97] ∈ res :=
  keys_ignores_ttl _ [42] [97] ⟨1⟩ (by decide) (by simp [globMatch])

/-- C7 (corrected, amended).  EXPIRE semantics: a seconds argument that
does not parse replies the canonical integer error and changes nothing;
with a parsed argument, an absent key replies `:0` and sets no TTL (the
state is exactly what the lazy-expiring read left); a present key
replies `:1` and sets the absolute expiration to the WRAPPED int64
nanosecond value `wrap64 (now + wrap64 (s * 10^9))`, appending the
canonical `PEXPIREAT` record — which equals the claimed `now + s`
seconds exactly when `s * 10^9` and the sum stay within int64 (last
conjunct). -/
theorem expire_semantics (db : DB) (now : Int) (k s : Key) :
    (parseInt64 s = none →
      execExpire db now [k, s]
        = (.error (strBytes "ERR value is not an integer or out of range"), db))
  ∧ (∀ n : Int, parseInt64 s = some n → (db.getEntity now k).1 = none →
      execExpire db now [k, s] = (.int 0, (db.getEntity now k).2))
  ∧ (∀ (n : Int) (e : Entity), parseInt64 s = some n → (db.getEntity now k).1 = some e →
      execExpire db now [k, s]
        = (.int 1, (db.expire k (wrap64 (now + wrap64 (n * 1000000000)))).addAof
            (makeExpireCmd k (wrap64 (now + wrap64 (n * 1000000000))))))
  ∧ (∀ n : Int, -(2 ^ 63) ≤ n * 1000000000 → n * 1000000000 < 2 ^ 63 →
      -(2 ^ 63) ≤ now + n * 1000000000 → now + n * 1000000000 < 2 ^ 63 →
      wrap64 (now + wrap64 (n * 1000000000)) = now + n * 1000000000) := by
  refine ⟨?_, ?_, ?_, ?_⟩
  · intro hp
    simp [execExpire, hp]
  · intro n hp hge
    rcases hpp : db.getEntity now k with ⟨o, db1⟩
    rw [hpp] at hge
    have ho : o = none := hge
    subst ho
    have he : execExpire db now [k, s] = (.int 0, db1) := by
      simp [execExpire, hp, hpp]
    rw [he]
  · intro n e hp hge
    have hpair := getEntity_pres db now k e hge
    simp [execExpire, hp, hpair]
  · intro n hb1 hb2 hb3 hb4
    rw [wrap64_id _ hb1 hb2, wrap64_id _ hb3 hb4]

/-- C7 counterexample: `EXPIRE k 10000000000` on a present key at
`now = 0` — the argument parses, the key exists, the reply is `:1`, but
the stored expiration is `wrap64 (10^10 * 10^9) = -8446744073709551616`
nanoseconds (about 267 years in the past), NOT `now + s` seconds: the
int64 multiplication `time.Duration(s) * time.Second` wrapped. -/
theorem expire_overflow_wraps :
    parseInt64 [49, 48, 48, 48, 48, 48, 48, 48, 48, 48, 48] = some 10000000000 ∧
    (execExpire ⟨[([107], ⟨1⟩)], [], []⟩ 0
        [[107], [49, 48, 48, 48, 48, 48, 48, 48, 48, 48, 48]]).1 = .int 1 ∧
    alookup (execExpire ⟨[([107], ⟨1⟩)], [], []⟩ 0
        [[107], [49, 48, 48, 48, 48, 48, 48, 48, 48, 48, 48]]).2.ttlMap [107]
      = some (-8446744073709551616) ∧
    ((-8446744073709551616 : Int) < 0) ∧
    ((-8446744073709551616 : Int) ≠ 0 + 10000000000 * 1000000000) := by
  refine ⟨by decide, by decide, by decide, by decide, by decide⟩

/-- C7 witness: the branches of the amended EXPIRE semantics at
concrete inputs — a non-numeric argument, an absent key, a present key
with `EXPIRE k 5`, and the no-wrap bound check for `s = 5`. -/
theorem expire_semantics_witness :
    execExpire ⟨[], [], []⟩ 0 [[107], [120]]
      = (.error (strBytes "ERR value is not an integer or out of range"), ⟨[], [], []⟩) ∧
    execExpire ⟨[], [], []⟩ 0 [[107], [53]] = (.int 0, ⟨[], [], []⟩) ∧
    execExpire ⟨[([107], ⟨1⟩)], [], []⟩ 0 [[107], [53]]
      = (.int 1, ((⟨[([107], ⟨1⟩)], [], []⟩ : DB).expire [107]
            (wrap64 (0 + wrap64 (5 * 1000000000)))).addAof
          (makeExpireCmd [107] (wrap64 (0 + wrap64 (5 * 1000000000))))) ∧
    wrap64 ((0 : Int) + wrap64 (5 * 1000000000)) = 0 + 5 * 1000000000 :=
  ⟨(expire_semantics ⟨[], [], []⟩ 0 [107] [120]).1 (by decide),
   (expire_semantics ⟨[], [], []⟩ 0 [107] [53]).2.1 5 (by decide) (by decide),
   (expire_semantics ⟨[([107], ⟨1⟩)], [], []⟩ 0 [107] [53]).2.2.1 5 ⟨1⟩
     (by decide) (by decide),
   (expire_semantics ⟨[], [], []⟩ 0 [107] [53]).2.2.2 5
     (by decide) (by decide) (by decide) (by decide)⟩

/-- C9 (confirmed).  RENAMENX no-action frame: whenever the destination
is present (as `GetEntity` sees it, honoring lazy expiration),
`execRenameNx` replies `:0` and returns the state entirely unchanged —
every key keeps its entity and its TTL. -/
theorem renamenx_collision_frame (db : DB) (now : Int) (src dst : Key) (e : Entity)
    (h : (db.getEntity now dst).1 = some e) :
    execRenameNx db now [src, dst] = (.int 0, db) := by
  have hp := getEntity_pres db now dst e h
  simp [execRenameNx, hp]

/-- C9 witness: `RENAMENX a b` with `b` present leaves the state
untouched and replies `:0`. -/
theorem renamenx_collision_frame_witness :
    ((⟨[([98], ⟨2⟩)], [], []⟩ : DB).getEntity 0 [98]).1 = some ⟨2⟩ ∧
    execRenameNx ⟨[([98], ⟨2⟩)], [], []⟩ 0 [[97], [98]]
      = (.int 0, ⟨[([98], ⟨2⟩)], [], []⟩) :=
  ⟨by decide, renamenx_collision_frame ⟨[([98], ⟨2⟩)], [], []⟩ 0 [97] [98] ⟨2⟩ (by decide)⟩

/-- C8 counterexample: `DEL k` on an empty keyspace replies the
non-error integer `:0` and appends NOTHING to the AOF — refuting the
claim that every non-error write appends one record. -/
theorem del_absent_no_aof :
    (execDel ⟨[], [], []⟩ [[107]]).1 = .int 0 ∧
    (execDel ⟨[], [], []⟩ [[107]]).1.isErr = false ∧
    (execDel ⟨[], [], []⟩ [[107]]).2.aof = [] := by
  decide

/-- C8 (corrected, amended).  AOF discipline of the full write surface
(DEL, EXPIRE, PEXPIRE, EXPIREAT, PEXPIREAT, RENAME, RENAMENX, PERSIST,
FLUSHDB): an error reply appends nothing (and leaves the state
untouched for the expiry family's parse errors); DEL appends exactly
one record iff it removed at least one key (a no-op DEL replies `:0`
and appends nothing); each EXPIRE-family command and PERSIST appends
exactly one record when it replies `:1` and nothing when it replies
`:0`; RENAME and RENAMENX append exactly one record on success and
nothing on an error or `:0` reply; FLUSHDB always succeeds and appends
exactly one record. -/
theorem aof_append_discipline (db : DB) (now : Int) (ks : List Key) (k s src dst : Key) :
    (∃ n : Nat, (execDel db ks).1 = .int n ∧
      (0 < n → (execDel db ks).2.aof = db.aof ++ [strBytes "del" :: ks]) ∧
      (n = 0 → (execDel db ks).2.aof = db.aof))
  ∧ (((execExpire db now [k, s]).1.isErr = true → (execExpire db now [k, s]).2 = db)
     ∧ ((execExpire db now [k, s]).1 = .int 0 →
          (execExpire db now [k, s]).2.aof = db.aof)
     ∧ ((execExpire db now [k, s]).1 = .int 1 →
          ∃ c, (execExpire db now [k, s]).2.aof = db.aof ++ [c]))
  ∧ (((execPExpire db now [k, s]).1.isErr = true → (execPExpire db now [k, s]).2 = db)
     ∧ ((execPExpire db now [k, s]).1 = .int 0 →
          (execPExpire db now [k, s]).2.aof = db.aof)
     ∧ ((execPExpire db now [k, s]).1 = .int 1 →
          ∃ c, (execPExpire db now [k, s]).2.aof = db.aof ++ [c]))
  ∧ (((execExpireAt db now [k, s]).1.isErr = true → (execExpireAt db now [k, s]).2 = db)
     ∧ ((execExpireAt db now [k, s]).1 = .int 0 →
          (execExpireAt db now [k, s]).2.aof = db.aof)
     ∧ ((execExpireAt db now [k, s]).1 = .int 1 →
          ∃ c, (execExpireAt db now [k, s]).2.aof = db.aof ++ [c]))
  ∧ (((execPExpireAt db now [k, s]).1.isErr = true → (execPExpireAt db now [k, s]).2 = db)
     ∧ ((execPExpireAt db now [k, s]).1 = .int 0 →
          (execPExpireAt db now [k, s]).2.aof = db.aof)
     ∧ ((execPExpireAt db now [k, s]).1 = .int 1 →
          ∃ c, (execPExpireAt db now [k, s]).2.aof = db.aof ++ [c]))
  ∧ (((execRename db now [src, dst]).1.isErr = true →
        (execRename db now [src, dst]).2.aof = db.aof)
     ∧ ((execRename db now [src, dst]).1.isErr = false →
        ∃ c, (execRename db now [src, dst]).2.aof = db.aof ++ [c]))
  ∧ (((execRenameNx db now [src, dst]).1.isErr = true →
        (execRenameNx db now [src, dst]).2.aof = db.aof)
     ∧ ((execRenameNx db now [src, dst]).1 = .int 0 →
        (execRenameNx db now [src, dst]).2.aof = db.aof)
     ∧ ((execRenameNx db now [src, dst]).1 = .int 1 →
        ∃ c, (execRenameNx db now [src, dst]).2.aof = db.aof ++ [c]))
  ∧ (((execPersist db now [k]).1 = .int 0 → (execPersist db now [k]).2.aof = db.aof)
     ∧ ((execPersist db now [k]).1 = .int 1 →
        ∃ c, (execPersist db now [k]).2.aof = db.aof ++ [c]))
  ∧ ((execFlushDB db ([] : List Key)).1.isErr = false ∧
      ∃ c, (execFlushDB db []).2.aof = db.aof ++ [c]) := by
  refine ⟨?_, ?_, ?_, ?_, ?_, ?_, ?_, ?_, ?_⟩
  · -- DEL
    refine ⟨(db.removes ks).1, by simp [execDel], ?_, ?_⟩
    · intro hn
      simp only [execDel]
      rw [if_pos hn]
      simp [DB.addAof, removes_aof]
    · intro hn
      simp only [execDel]
      rw [if_neg (by omega)]
      simp [removes_aof]
  · -- EXPIRE
    rcases hps : parseInt64 s with _ | n
    · have he : execExpire db now [k, s]
          = (.error (strBytes "ERR value is not an integer or out of range"), db) := by
        simp [execExpire, hps]
      rw [he]
      exact ⟨fun _ => rfl, fun h => by simp at h, fun h => by simp at h⟩
    · rcases hge : db.getEntity now k with ⟨o, db1⟩
      have haof1 : db1.aof = db.aof := by
        have h := getEntity_aof db now k
        rw [hge] at h
        exact h
      cases o with
      | none =>
        have he : execExpire db now [k, s] = (.int 0, db1) := by
          simp [execExpire, hps, hge]
        rw [he]
        exact ⟨fun h => by simp [Reply.isErr] at h, fun _ => haof1, fun h => by simp at h⟩
      | some e =>
        have he : execExpire db now [k, s]
            = (.int 1, (db1.expire k (wrap64 (now + wrap64 (n * 1000000000)))).addAof
                (makeExpireCmd k (wrap64 (now + wrap64 (n * 1000000000))))) := by
          simp [execExpire, hps, hge]
        rw [he]
        refine ⟨fun h => by simp [Reply.isErr] at h, fun h => by simp at h, fun _ => ?_⟩
        exact ⟨makeExpireCmd k (wrap64 (now + wrap64 (n * 1000000000))),
          by simp [DB.addAof, DB.expire, haof1]⟩
  · -- PEXPIRE
    rcases hps : parseInt64 s with _ | n
    · have he : execPExpire db now [k, s]
          = (.error (strBytes "ERR value is not an integer or out of range"), db) := by
        simp [execPExpire, hps]
      rw [he]
      exact ⟨fun _ => rfl, fun h => by simp at h, fun h => by simp at h⟩
    · rcases hge : db.getEntity now k with ⟨o, db1⟩
      have haof1 : db1.aof = db.aof := by
        have h := getEntity_aof db now k
        rw [hge] at h
        exact h
      cases o with
      | none =>
        have he : execPExpire db now [k, s] = (.int 0, db1) := by
          simp [execPExpire, hps, hge]
        rw [he]
        exact ⟨fun h => by simp [Reply.isErr] at h, fun _ => haof1, fun h => by simp at h⟩
      | some e =>
        have he : execPExpire db now [k, s]
            = (.int 1, (db1.expire k (wrap64 (now + wrap64 (n * 1000000)))).addAof
                (makeExpireCmd k (wrap64 (now + wrap64 (n * 1000000))))) := by
          simp [execPExpire, hps, hge]
        rw [he]
        refine ⟨fun h => by simp [Reply.isErr] at h, fun h => by simp at h, fun _ => ?_⟩
        exact ⟨makeExpireCmd k (wrap64 (now + wrap64 (n * 1000000))),
          by simp [DB.addAof, DB.expire, haof1]⟩
  · -- EXPIREAT
    rcases hps : parseInt64 s with _ | n
    · have he : execExpireAt db now [k, s]
          = (.error (strBytes "ERR value is not an integer or out of range"), db) := by
        simp [execExpireAt, hps]
      rw [he]
      exact ⟨fun _ => rfl, fun h => by simp at h, fun h => by simp at h⟩
    · rcases hge : db.getEntity now k with ⟨o, db1⟩
      have haof1 : db1.aof = db.aof := by
        have h := getEntity_aof db now k
        rw [hge] at h
        exact h
      cases o with
      | none =>
        have he : execExpireAt db now [k, s] = (.int 0, db1) := by
          simp [execExpireAt, hps, hge]
        rw [he]
        exact ⟨fun h => by simp [Reply.isErr] at h, fun _ => haof1, fun h => by simp at h⟩
      | some e =>
        have he : execExpireAt db now [k, s]
            = (.int 1, (db1.expire k (n * 1000000000)).addAof
                (makeExpireCmd k (n * 1000000000))) := by
          simp [execExpireAt, hps, hge]
        rw [he]
        refine ⟨fun h => by simp [Reply.isErr] at h, fun h => by simp at h, fun _ => ?_⟩
        exact ⟨makeExpireCmd k (n * 1000000000), by simp [DB.addAof, DB.expire, haof1]⟩
  · -- PEXPIREAT
    rcases hps : parseInt64 s with _ | n
    · have he : execPExpireAt db now [k, s]
          = (.error (strBytes "ERR value is not an integer or out of range"), db) := by
        simp [execPExpireAt, hps]
      rw [he]
      exact ⟨fun _ => rfl, fun h => by simp at h, fun h => by simp at h⟩
    · rcases hge : db.getEntity now k with ⟨o, db1⟩
      have haof1 : db1.aof = db.aof := by
        have h := getEntity_aof db now k
        rw [hge] at h
        exact h
      cases o with
      | none =>
        have he : execPExpireAt db now [k, s] = (.int 0, db1) := by
          simp [execPExpireAt, hps, hge]
        rw [he]
        exact ⟨fun h => by simp [Reply.isErr] at h, fun _ => haof1, fun h => by simp at h⟩
      | some e =>
        have he : execPExpireAt db now [k, s]
            = (.int 1, (db1.expire k (wrap64 (n * 1000000))).addAof
                (makeExpireCmd k (wrap64 (n * 1000000)))) := by
          simp [execPExpireAt, hps, hge]
        rw [he]
        refine ⟨fun h => by simp [Reply.isErr] at h, fun h => by simp at h, fun _ => ?_⟩
        exact ⟨makeExpireCmd k (wrap64 (n * 1000000)), by simp [DB.addAof, DB.expire, haof1]⟩
  · -- RENAME
    rcases hge : db.getEntity now src with ⟨o, db1⟩
    have haof1 : db1.aof = db.aof := by
      have h := getEntity_aof db now src
      rw [hge] at h
      exact h
    cases o with
    | none =>
      have he : execRename db now [src, dst] = (.error (strBytes "no such key"), db1) := by
        simp [execRename, hge]
      rw [he]
      exact ⟨fun _ => haof1, fun h => by simp [Reply.isErr] at h⟩
    | some e =>
      rcases httl : alookup db1.ttlMap src with _ | t
      · have he : execRename db now [src, dst]
            = (.status (strBytes "OK"),
               ((db1.putEntity dst e).remove src).addAof [strBytes "rename", src, dst]) := by
          simp [execRename, hge, httl]
        rw [he]
        refine ⟨fun h => by simp [Reply.isErr] at h, fun _ => ?_⟩
        exact ⟨[strBytes "rename", src, dst],
          by simp [DB.addAof, DB.putEntity, DB.remove, haof1]⟩
      · have he : execRename db now [src, dst]
            = (.status (strBytes "OK"),
               (((((db1.putEntity dst e).remove src).persist src).persist dst).expire dst t
                 ).addAof [strBytes "rename", src, dst]) := by
          simp [execRename, hge, httl]
        rw [he]
        refine ⟨fun h => by simp [Reply.isErr] at h, fun _ => ?_⟩
        exact ⟨[strBytes "rename", src, dst],
          by simp [DB.addAof, DB.putEntity, DB.remove, DB.persist, DB.expire, haof1]⟩
  · -- RENAMENX
    rcases hgd : db.getEntity now dst with ⟨od, db1⟩
    have haof1 : db1.aof = db.aof := by
      have h := getEntity_aof db now dst
      rw [hgd] at h
      exact h
    cases od with
    | some e =>
      have he : execRenameNx db now [src, dst] = (.int 0, db1) := by
        simp [execRenameNx, hgd]
      rw [he]
      exact ⟨fun h => by simp [Reply.isErr] at h, fun _ => haof1, fun h => by simp at h⟩
    | none =>
      rcases hgs : db1.getEntity now src with ⟨os, db2⟩
      have haof2 : db2.aof = db.aof := by
        have h := getEntity_aof db1 now src
        rw [hgs] at h
        rw [h, haof1]
      cases os with
      | none =>
        have he : execRenameNx db now [src, dst]
            = (.error (strBytes "no such key"), db2) := by
          simp [execRenameNx, hgd, hgs]
        rw [he]
        exact ⟨fun _ => haof2, fun h => by simp at h, fun h => by simp at h⟩
      | some e =>
        have haof3 : (db2.removes [src, dst]).2.aof = db.aof := by
          rw [removes_aof, haof2]
        rcases httl : alookup db2.ttlMap src with _ | t
        · have he : execRenameNx db now [src, dst]
              = (.int 1, (((db2.removes [src, dst]).2.putEntity dst e)
                  ).addAof [strBytes "renamenx", src, dst]) := by
            simp [execRenameNx, hgd, hgs, httl]
          rw [he]
          refine ⟨fun h => by simp [Reply.isErr] at h, fun h => by simp at h, fun _ => ?_⟩
          exact ⟨[strBytes "renamenx", src, dst],
            by simp [DB.addAof, DB.putEntity, haof3]⟩
        · have he : execRenameNx db now [src, dst]
              = (.int 1, (((((db2.removes [src, dst]).2.putEntity dst e).persist src
                  ).persist dst).expire dst t).addAof [strBytes "renamenx", src, dst]) := by
            simp [execRenameNx, hgd, hgs, httl]
          rw [he]
          refine ⟨fun h => by simp [Reply.isErr] at h, fun h => by simp at h, fun _ => ?_⟩
          exact ⟨[strBytes "renamenx", src, dst],
            by simp [DB.addAof, DB.putEntity, DB.persist, DB.expire, haof3]⟩
  · -- PERSIST
    rcases hge : db.getEntity now k with ⟨o, db1⟩
    have haof1 : db1.aof = db.aof := by
      have h := getEntity_aof db now k
      rw [hge] at h
      exact h
    cases o with
    | none =>
      have he : execPersist db now [k] = (.int 0, db1) := by
        simp [execPersist, hge]
      rw [he]
      exact ⟨fun _ => haof1, fun h => by simp at h⟩
    | some e =>
      rcases httl : alookup db1.ttlMap k with _ | t
      · have he : execPersist db now [k] = (.int 0, db1) := by
          simp [execPersist, hge, httl]
        rw [he]
        exact ⟨fun _ => haof1, fun h => by simp at h⟩
      · have he : execPersist db now [k]
            = (.int 1, (db1.persist k).addAof [strBytes "persist", k]) := by
          simp [execPersist, hge, httl]
        rw [he]
        refine ⟨fun h => by simp at h, fun _ => ?_⟩
        exact ⟨[strBytes "persist", k], by simp [DB.addAof, DB.persist, haof1]⟩
  · -- FLUSHDB
    exact ⟨rfl, ⟨strBytes "flushdb" :: [], by simp [execFlushDB, DB.addAof, DB.flush]⟩⟩

/-- C8 witness: FLUSHDB on a state with one prior AOF record appends
exactly one record. -/
theorem aof_append_discipline_witness :
    (execFlushDB (⟨[], [], [[[102]]]⟩ : DB) []).1.isErr = false ∧
    ∃ c, (execFlushDB (⟨[], [], [[[102]]]⟩ : DB) []).2.aof = [[[102]]] ++ [c] :=
  (aof_append_discipline ⟨[], [], [[[102]]]⟩ 0 [] [107] [53] [97] [98]).2.2.2.2.2.2.2.2

end Godis
